import Mathlib

/-!
Verification of the hook validator engine (`validate-hook.py`) of the
`create-hooks` repository.

The Python source is shallowly embedded: pure string manipulation is
translated to functions over `List Char`; interactions with the outside world
(the filesystem, the Python/bash parsers, subprocesses) are abstracted as
oracle fields of explicit environment structures, so that every embedded
function is a total, executable Lean function of its environment.
-/

namespace CreateHooks

/-- Strings manipulated by the validator are modelled as lists of characters,
mirroring Python `str` values (over which the source does indexing, slicing,
`in` tests and `replace`). -/
abbrev Str := List Char

/-- Shorthand: the character list of a Lean string literal. -/
def sL (s : String) : Str := s.toList

/-- The single-quote character (written via its code point so that quote
characters never appear inside string literals). -/
def sqC : Char := Char.ofNat 39

/-- The double-quote character. -/
def dqC : Char := Char.ofNat 34

/-- `quotedD s` is the text `"s"` (the string `s` wrapped in double quotes). -/
def quotedD (s : String) : Str := dqC :: s.toList ++ [dqC]

/-- `quotedS s` is the text `'s'` (the string `s` wrapped in single quotes). -/
def quotedS (s : String) : Str := sqC :: s.toList ++ [sqC]

/-- Python's `pat in s` substring test. -/
def containsL (pat : Str) : Str → Bool
  | [] => pat.isEmpty
  | c :: rest => pat.isPrefixOf (c :: rest) || containsL pat rest

/-- Python's `s.endswith(pat)`. -/
def endsWithL (s pat : Str) : Bool := pat.isSuffixOf s

/-- Worker for `replaceAll`: `skip` counts characters of a just-matched
pattern occurrence still to be consumed without rescanning. -/
def replaceAllGo (pat rep : Str) : Nat → Str → Str
  | _, [] => []
  | skip+1, _ :: rest => replaceAllGo pat rep skip rest
  | 0, c :: rest =>
    if pat ≠ [] ∧ pat.isPrefixOf (c :: rest) then
      rep ++ replaceAllGo pat rep (pat.length - 1) rest
    else c :: replaceAllGo pat rep 0 rest

/-- Python's `s.replace(pat, rep)`: replace every non-overlapping occurrence
of `pat` in `s` by `rep`, scanning left to right; the replacement text is not
rescanned.  (For the empty pattern the source never calls `replace`, and this
embedding returns the string unchanged.) -/
def replaceAll (pat rep s : Str) : Str := replaceAllGo pat rep 0 s

theorem replaceAllGo_skip (pat rep : Str) :
    ∀ (l : Str) (n : Nat), replaceAllGo pat rep n l = replaceAllGo pat rep 0 (l.drop n) := by
  intro l
  induction l with
  | nil => intro n; cases n <;> rfl
  | cons c rest ih =>
    intro n
    cases n with
    | zero => rfl
    | succ m => simpa [replaceAllGo] using ih m

@[simp] theorem replaceAll_nil (pat rep : Str) : replaceAll pat rep [] = [] := rfl

/-- The recursion equation of Python `replace`: on a pattern occurrence, emit
the replacement and continue after the occurrence; otherwise keep one
character and continue. -/
theorem replaceAll_cons (pat rep : Str) (c : Char) (rest : Str) :
    replaceAll pat rep (c :: rest) =
      if pat ≠ [] ∧ pat.isPrefixOf (c :: rest) then
        rep ++ replaceAll pat rep ((c :: rest).drop pat.length)
      else c :: replaceAll pat rep rest := by
  show replaceAllGo pat rep 0 (c :: rest) = _
  rw [replaceAllGo]
  split
  · rename_i h
    rw [replaceAllGo_skip]
    obtain ⟨p, pt, rfl⟩ : ∃ p pt, pat = p :: pt := by
      cases pat with
      | nil => exact absurd rfl h.1
      | cons p pt => exact ⟨p, pt, rfl⟩
    simp [replaceAll, List.length_cons]
  · rfl

/-- Python's whitespace class used by `str.split()` and `str.strip()`. -/
def pySpace (c : Char) : Bool :=
  c = ' ' || c = '\t' || c = '\n' || c = '\r' || c = Char.ofNat 11 || c = Char.ofNat 12

/-- Python's `s.split()`: split on whitespace, discarding empty chunks (so
runs of whitespace and leading/trailing whitespace produce no tokens). -/
def splitWs (s : Str) : List Str :=
  (s.splitOnP pySpace).filter (fun t => !t.isEmpty)

/-- Python's `s.strip()` (both-ends whitespace strip). -/
def stripS (s : String) : String :=
  String.mk (((s.toList.dropWhile pySpace).reverse.dropWhile pySpace).reverse)

/-- Python's `word character` class for the `\w` regex atom (ASCII view). -/
def pyWordChar (c : Char) : Bool := c.isAlphanum || c = '_'

end CreateHooks

namespace CreateHooks

/-- One entry of the static `EVENT_SCHEMAS` table: the required and optional
payload fields of an event, whether it supports a matcher and whether its hook
may block. -/
structure EventSchema where
  required : List Str
  opt : List Str
  has_matcher : Bool
  can_block : Bool
deriving DecidableEq

/-- The `EVENT_SCHEMAS` dictionary of the source, as an association list in
the source's key order. -/
def EVENT_SCHEMAS : List (Str × EventSchema) :=
  [ (sL "PreToolUse",
      ⟨[sL "tool_name", sL "tool_input"], [sL "tool_use_id", sL "session_id"], true, true⟩),
    (sL "PostToolUse",
      ⟨[sL "tool_name", sL "tool_input", sL "tool_response"], [sL "tool_use_id", sL "session_id"], true, false⟩),
    (sL "UserPromptSubmit",
      ⟨[sL "prompt"], [sL "session_id"], false, true⟩),
    (sL "Stop",
      ⟨[sL "stop_hook_active"], [sL "transcript_path", sL "session_id"], false, true⟩),
    (sL "SubagentStop",
      ⟨[sL "stop_hook_active"], [sL "transcript_path", sL "session_id"], false, true⟩),
    (sL "SessionStart",
      ⟨[sL "source"], [sL "session_id"], true, false⟩),
    (sL "SessionEnd",
      ⟨[sL "reason"], [sL "session_id"], false, false⟩),
    (sL "PermissionRequest",
      ⟨[sL "tool_name", sL "tool_input"], [sL "tool_use_id", sL "session_id"], true, true⟩),
    (sL "PreCompact",
      ⟨[], [sL "session_id"], true, false⟩),
    (sL "Notification",
      ⟨[sL "message", sL "notification_type"], [sL "session_id"], true, false⟩) ]

/-- Dictionary lookup `EVENT_SCHEMAS[name]` / `name in EVENT_SCHEMAS`:
returns the event's schema, or `none` for an unknown event name. -/
def lookupSchema (name : Str) : Option EventSchema :=
  (EVENT_SCHEMAS.find? (fun p => p.1 == name)).map Prod.snd

example : (lookupSchema (sL "PreCompact")).map EventSchema.required = some [] := by decide
example : lookupSchema (sL "Bogus") = none := by decide
example : (lookupSchema (sL "Stop")).map EventSchema.required = some [sL "stop_hook_active"] := by decide

/-- One hook descriptor inside a settings config object.  `htype` models the
optional `type` key (`hook.get("type", "command")`), `command` and `prompt`
model `hook.get("command", "")` and `hook.get("prompt", "")` (a missing key
behaves exactly like the empty string, which is how the source reads them). -/
structure HookEntry where
  htype : Option Str := none
  command : Str := []
  prompt : Str := []
deriving DecidableEq

/-- One config object of an event: optional `matcher` key plus hook list. -/
structure HookConfig where
  matcher : Option Str := none
  hooks : List HookEntry := []
deriving DecidableEq

/-- The `hooks` mapping of a parsed settings document, as an association list
from event name to config objects (JSON objects have unique keys). -/
abbrev SettingsDoc := List (Str × List HookConfig)

/-- The textual forms of the project-root placeholder substituted by
`find_hook_in_settings` (lines 337-339 of the source), in substitution
order: double-quoted, single-quoted, bare. -/
def dqPat : Str := quotedD "$CLAUDE_PROJECT_DIR"

def sqPat : Str := quotedS "$CLAUDE_PROJECT_DIR"

def barePat : Str := sL "$CLAUDE_PROJECT_DIR"

/-- Placeholder expansion of a command string by `find_hook_in_settings`:
three sequential `str.replace` calls (double-quoted form first, then
single-quoted, then bare). -/
def expandCommand (projDir command : Str) : Str :=
  replaceAll barePat projDir (replaceAll sqPat projDir (replaceAll dqPat projDir command))

/-- Quote stripping before tokenisation:
`expanded.replace('"', '').replace("'", '')`. -/
def cleanQuotes (expanded : Str) : Str :=
  replaceAll [sqC] [] (replaceAll [dqC] [] expanded)

/-- Per-token match test of `find_hook_in_settings` (lines 348-367): a token
containing the script's filename matches if it resolves to the script's
absolute path, and otherwise (resolution failed, i.e. `resolve` is `none`
modelling an `OSError`/`ValueError`, or resolution succeeded with a different
path) if it ends with the filename.  `resolve` is the filesystem oracle
modelling `Path(part).resolve()`. -/
def partMatches (resolve : Str → Option Str) (hookAbs hookName part : Str) : Bool :=
  containsL hookName part &&
    (match resolve part with
     | some p => p == hookAbs || endsWithL part hookName
     | none => endsWithL part hookName)

/-- Contribution of one hook descriptor to the search (the two inner loops of
`find_hook_in_settings`): `some (event, matcher?)` when the descriptor's
command references the script (the `break` in the source means each
descriptor contributes at most one event/matcher pair), `none` otherwise.
The matcher is recorded only when it differs from the `"*"` wildcard. -/
def entryMatch (resolve : Str → Option Str) (hookName hookAbs projDir : Str)
    (event matcher : Str) (h : HookEntry) : Option (Str × Option Str) :=
  if h.htype.getD (sL "command") ≠ sL "command" then none
  else if h.command = [] then none
  else
    let expanded := expandCommand projDir h.command
    if containsL hookName expanded then
      if (splitWs (cleanQuotes expanded)).any (partMatches resolve hookAbs hookName) then
        some (event, if matcher ≠ sL "*" then some matcher else none)
      else none
    else none

/-- Matches contributed by the hook list of one config object. -/
def collectHooks (resolve : Str → Option Str) (hookName hookAbs projDir : Str)
    (event matcher : Str) : List HookEntry → List (Str × Option Str)
  | [] => []
  | h :: rest =>
    (match entryMatch resolve hookName hookAbs projDir event matcher h with
     | some m => [m]
     | none => []) ++ collectHooks resolve hookName hookAbs projDir event matcher rest

/-- Matches contributed by the config list of one event. -/
def collectConfigs (resolve : Str → Option Str) (hookName hookAbs projDir : Str)
    (event : Str) : List HookConfig → List (Str × Option Str)
  | [] => []
  | cfg :: rest =>
    collectHooks resolve hookName hookAbs projDir event (cfg.matcher.getD (sL "*")) cfg.hooks ++
      collectConfigs resolve hookName hookAbs projDir event rest

/-- Matches contributed by a whole `hooks` mapping. -/
def collectMatches (resolve : Str → Option Str) (hookName hookAbs projDir : Str) :
    SettingsDoc → List (Str × Option Str)
  | [] => []
  | (ev, cfgs) :: rest =>
    collectConfigs resolve hookName hookAbs projDir ev cfgs ++
      collectMatches resolve hookName hookAbs projDir rest

/-- `find_hook_in_settings`: whether (and under which events/matchers) a hook
script is registered in one settings file.  `settings = none` covers a
missing settings file, unreadable file, or malformed JSON — the three cases
in which the source returns `(False, [], [])`; an absent or empty `hooks`
key is the empty document. -/
def find_hook_in_settings (resolve : Str → Option Str) (settings : Option SettingsDoc)
    (hookName hookAbs projDir : Str) : Bool × List Str × List Str :=
  match settings with
  | none => (false, [], [])
  | some doc =>
    let ms := collectMatches resolve hookName hookAbs projDir doc
    (!ms.isEmpty, ms.map Prod.fst, ms.filterMap Prod.snd)

/-- `InstallationInfo`: where a hook is registered. -/
structure InstallationInfo where
  project : Bool := false
  local_ : Bool := false
  user : Bool := false
  events : List Str := []
  matchers : List Str := []
deriving DecidableEq

/-- `InstallationInfo.is_installed`. -/
def InstallationInfo.is_installed (i : InstallationInfo) : Bool :=
  i.project || i.local_ || i.user

/-- `InstallationInfo.scope_description`. -/
def InstallationInfo.scope_description (i : InstallationInfo) : String :=
  if i.user then "Will run in ALL projects"
  else if i.project || i.local_ then "Will run in THIS project only"
  else "Will NOT run (not registered in any settings file)"

/-- `check_installation_status`: run `find_hook_in_settings` over the three
settings tiers (project, local, user) and accumulate the flags, events and
matchers. -/
def check_installation_status (resolve : Str → Option Str) (hookName hookAbs projDir : Str)
    (projSettings localSettings userSettings : Option SettingsDoc) : InstallationInfo :=
  let r1 := find_hook_in_settings resolve projSettings hookName hookAbs projDir
  let r2 := find_hook_in_settings resolve localSettings hookName hookAbs projDir
  let r3 := find_hook_in_settings resolve userSettings hookName hookAbs projDir
  { project := r1.1, local_ := r2.1, user := r3.1,
    events := (if r1.1 then r1.2.1 else []) ++ (if r2.1 then r2.2.1 else []) ++
      (if r3.1 then r3.2.1 else []),
    matchers := (if r1.1 then r1.2.2 else []) ++ (if r2.1 then r2.2.2 else []) ++
      (if r3.1 then r3.2.2 else []) }

example :
    find_hook_in_settings (fun s => some s)
      (some [(sL "PreToolUse",
        [⟨some (sL "Write"), [⟨none, sL "python3 $CLAUDE_PROJECT_DIR/.claude/hooks/x.py", []⟩]⟩])])
      (sL "x.py") (sL "/proj/.claude/hooks/x.py") (sL "/proj")
    = (true, [sL "PreToolUse"], [sL "Write"]) := by decide

example :
    find_hook_in_settings (fun s => some s)
      (some [(sL "PreToolUse", [⟨none, [⟨none, sL "python3 /elsewhere/y.py", []⟩]⟩])])
      (sL "x.py") (sL "/proj/.claude/hooks/x.py") (sL "/proj")
    = (false, [], []) := by decide

/-- `ValidationResult`: three ordered finding lists plus the optional
installation record.  Findings are stored with the same emoji prefixes the
source's `error`/`warn`/`ok`/`info` methods attach. -/
structure ValidationResult where
  errors : List String := []
  warnings : List String := []
  passed : List String := []
  installation : Option InstallationInfo := none
deriving DecidableEq

/-- `ValidationResult.success`: no errors recorded. -/
def ValidationResult.success (r : ValidationResult) : Bool := r.errors.isEmpty

/-- Sequential accumulation of findings (the source appends to the same
result object; appending result fragments in order is the same thing).  The
later fragment's installation record, when present, wins — the source only
ever sets it once, at the end. -/
instance : Append ValidationResult :=
  ⟨fun a b =>
    { errors := a.errors ++ b.errors, warnings := a.warnings ++ b.warnings,
      passed := a.passed ++ b.passed,
      installation := match b.installation with
        | some i => some i
        | none => a.installation }⟩

def errTxt (m : String) : String := "❌ " ++ m

def warnTxt (m : String) : String := "⚠️  " ++ m

def okTxt (m : String) : String := "✓ " ++ m

def infoTxt (m : String) : String := "ℹ️  " ++ m

/-- `result.error(msg)` as a result fragment. -/
def mkErrR (m : String) : ValidationResult := { errors := [errTxt m] }

/-- `result.warn(msg)` as a result fragment. -/
def mkWarnR (m : String) : ValidationResult := { warnings := [warnTxt m] }

/-- `result.ok(msg)` as a result fragment. -/
def mkOkR (m : String) : ValidationResult := { passed := [okTxt m] }

/-- `result.info(msg)` as a result fragment. -/
def mkInfoR (m : String) : ValidationResult := { passed := [infoTxt m] }

/-- The empty result fragment. -/
def emptyR : ValidationResult := {}

@[simp] theorem errors_append (a b : ValidationResult) :
    (a ++ b).errors = a.errors ++ b.errors := rfl

@[simp] theorem warnings_append (a b : ValidationResult) :
    (a ++ b).warnings = a.warnings ++ b.warnings := rfl

@[simp] theorem passed_append (a b : ValidationResult) :
    (a ++ b).passed = a.passed ++ b.passed := rfl

theorem installation_append (a b : ValidationResult) :
    (a ++ b).installation = match b.installation with
      | some i => some i
      | none => a.installation := rfl

theorem resultAppend_assoc (a b c : ValidationResult) :
    a ++ b ++ c = a ++ (b ++ c) := by
  show ValidationResult.mk _ _ _ _ = ValidationResult.mk _ _ _ _
  simp only [errors_append, warnings_append, passed_append, installation_append,
    List.append_assoc]
  cases c.installation <;> cases b.installation <;> rfl

@[simp] theorem emptyR_append (a : ValidationResult) : emptyR ++ a = a := by
  show ValidationResult.mk _ _ _ _ = a
  cases a with
  | mk e w p i =>
    simp only [errors_append, warnings_append, passed_append, installation_append]
    cases i <;> rfl

@[simp] theorem append_emptyR (a : ValidationResult) : a ++ emptyR = a := by
  show ValidationResult.mk _ _ _ _ = a
  simp [emptyR, installation_append]

/-- `detect_hook_event`'s regex search `re.search(r'Event:\s*(\w+)', content)`:
find the leftmost occurrence of the literal `Event:` that is followed, after
optional whitespace, by at least one word character, and return that word. -/
def findEventMarker : Str → Option Str
  | [] => none
  | c :: rest =>
    if (sL "Event:").isPrefixOf (c :: rest) then
      let word := (((c :: rest).drop 6).dropWhile pySpace).takeWhile pyWordChar
      if word ≠ [] then some word else findEventMarker rest
    else findEventMarker rest

/-- The content-based heuristics of `detect_hook_event` (the chain of `in`
tests after the header marker), in source order.  The `prompt` test only
returns when `tool_name` is absent, otherwise the chain continues — the
conditional guards reproduce that fall-through. -/
def heuristicEvent (content : Str) : Option Str :=
  if containsL (sL "stop_hook_active") content then some (sL "Stop")
  else if containsL (sL "tool_response") content then some (sL "PostToolUse")
  else if (containsL (quotedD "prompt") content || containsL (sL "prompt") content) &&
      !containsL (sL "tool_name") content then some (sL "UserPromptSubmit")
  else if containsL (sL "notification_type") content then some (sL "Notification")
  else if containsL (quotedD "source") content && containsL (sL "startup") content then
    some (sL "SessionStart")
  else if containsL (quotedD "reason") content && !containsL (sL "tool_name") content then
    some (sL "SessionEnd")
  else if containsL (sL "tool_name") content then some (sL "PreToolUse")
  else none

/-- `detect_hook_event`: an `Event: <name>` header marker naming a known
event wins; an unknown marker name falls through to the content heuristics. -/
def detect_hook_event (content : Str) : Option Str :=
  match findEventMarker content with
  | some w => if (lookupSchema w).isSome then some w else heuristicEvent content
  | none => heuristicEvent content

/-- `event_hint or detect_hook_event(...)`: the caller's hint wins when
non-empty (Python truthiness of strings). -/
def effectiveEvent (hint : Option Str) (content : Str) : Option Str :=
  match hint with
  | some e => if e = [] then detect_hook_event content else some e
  | none => detect_hook_event content

/-- Step 4 of `validate_hook_script`, as a pure classifier: which interpreter
the script is treated as (`is_python`, `is_bash`).  The extension-based guess
is only consulted in the unusual-shebang branch. -/
def detectLang (firstLine : Str) (suffix : String) : Bool × Bool :=
  if !(sL "#!").isPrefixOf firstLine then (false, false)
  else if containsL (sL "python") firstLine then (true, false)
  else if containsL (sL "bash") firstLine || containsL (sL "sh") firstLine then (false, true)
  else (suffix == ".py", suffix == ".sh")

/-- Step 4 of `validate_hook_script`: the findings it records. -/
def shebangFindings (firstLine : Str) : ValidationResult :=
  if !(sL "#!").isPrefixOf firstLine then
    mkErrR "Missing shebang (should start with #!/usr/bin/env python3 or #!/bin/bash)"
  else if containsL (sL "python") firstLine then mkOkR "Valid Python shebang"
  else if containsL (sL "bash") firstLine || containsL (sL "sh") firstLine then
    mkOkR "Valid Bash shebang"
  else mkWarnR ("Unusual shebang: " ++ String.mk firstLine)

/-- Outcome of the `bash -n` syntax subprocess (step 5, bash branch). -/
inductive BashSynRes where
  | passed
  | failed (stderrMsg : String)
  | timedOut
  | bashMissing
deriving DecidableEq

/-- Step 5, bash branch: findings from the `bash -n` outcome.  A bash syntax
error is recorded but — unlike the Python branch — does not abort the
remaining checks. -/
def bashSynFindings : BashSynRes → ValidationResult
  | .passed => mkOkR "Bash syntax valid"
  | .failed m => mkErrR ("Bash syntax error: " ++ m)
  | .timedOut => mkWarnR "Bash syntax check timed out"
  | .bashMissing => mkWarnR "Cannot check bash syntax (bash not found)"

/-- Step 6: stdin-JSON-handling heuristic. -/
def stdinStep (content : Str) (is_python is_bash : Bool) : ValidationResult :=
  if is_python then
    if containsL (sL "json.load(sys.stdin)") content || containsL (sL "json.loads") content then
      mkOkR "Handles JSON input from stdin"
    else mkWarnR "No json.load(sys.stdin) found - may not handle input correctly"
  else if is_bash then
    if containsL (sL "cat") content || containsL (sL "INPUT=$(") content ||
        containsL (sL "read") content then
      mkOkR "Reads input from stdin"
    else mkWarnR "May not read input from stdin"
  else emptyR

/-- Step 7: event-type report and the Stop/SubagentStop reentry-guard check. -/
def eventStep (ev : Option Str) (content : Str) : ValidationResult :=
  match ev with
  | some e =>
    mkOkR ("Detected event type: " ++ String.mk e) ++
      (if e = sL "Stop" || e = sL "SubagentStop" then
        if !containsL (sL "stop_hook_active") content then
          mkErrR "Stop hook missing stop_hook_active check (infinite loop risk!)"
        else mkOkR "Has stop_hook_active check (prevents infinite loops)"
      else emptyR)
  | none => mkWarnR "Could not detect event type from script content"

/-- Step 8: exit-code idiom usage. -/
def exitCodeStep (content : Str) (is_python is_bash : Bool) : ValidationResult :=
  if is_python then
    (if containsL (sL "sys.exit(2)") content then mkOkR "Uses exit(2) for blocking" else emptyR) ++
    (if containsL (sL "sys.exit(0)") content then mkOkR "Uses exit(0) for success" else emptyR) ++
    (if containsL (sL "sys.exit(1)") content then
      mkWarnR "Uses exit(1) - non-blocking error (logged only)" else emptyR)
  else if is_bash then
    (if containsL (sL "exit 2") content then mkOkR "Uses exit 2 for blocking" else emptyR) ++
    (if containsL (sL "exit 0") content then mkOkR "Uses exit 0 for success" else emptyR)
  else emptyR

/-- Outcome of the runtime-probe subprocess (step 9). -/
inductive ProbeRes where
  | finished (exitCode : Int) (stdout stderr : String)
  | timedOut
  | launchFail (msg : String)
deriving DecidableEq

/-- Step 9: classification of the runtime-probe outcome.  Exit codes 0, 1
and 2 pass; non-empty stdout is then probed as JSON (valid JSON is a pass,
short non-JSON text is also reported as a pass, long non-JSON output is
ignored); any other exit code is an error; stderr noise with a non-blocking
exit code is a warning; a timeout or launch failure is an error.
`jsonValid` is the oracle for `json.loads` succeeding on the stdout text. -/
def runtimeTestStep (jsonValid : String → Bool) : ProbeRes → ValidationResult
  | .finished code out errS =>
    (if code = 0 ∨ code = 1 ∨ code = 2 then
      mkOkR ("Runtime test passed (exit code: " ++ toString code ++ ")") ++
        (if stripS out ≠ "" then
          if jsonValid out then mkOkR "Outputs valid JSON"
          else if out.length < 200 then
            mkOkR ("Outputs text: " ++ (stripS out).take 50)
          else emptyR
        else emptyR)
    else mkErrR ("Unexpected exit code: " ++ toString code)) ++
    (if stripS errS ≠ "" ∧ code ≠ 2 then
      mkWarnR ("Stderr output: " ++ (stripS errS).take 100)
    else emptyR)
  | .timedOut => mkErrR "Script timed out (>10s) on test input"
  | .launchFail m => mkErrR ("Runtime test failed: " ++ m)

/-- The world one `validate_hook_script` call interacts with: the script's
filesystem state and text, plus oracles for the Python parser, the `bash -n`
call, the runtime-probe subprocess (indexed by the event whose synthetic
payload is fed to it), JSON parsing of the probe's stdout, path resolution,
and the three parsed settings layers. -/
structure HookEnv where
  script_exists : Bool
  script_name : Str
  executable : Bool
  read_content : Option Str
  read_err : String := ""
  suffix : String
  pyAstCheck : Str → Option (String × Nat)
  bashCheck : BashSynRes
  probe : Str → ProbeRes
  jsonValid : String → Bool
  resolve : Str → Option Str
  hookAbs : Str
  projDir : Str
  projSettings : Option SettingsDoc := none
  localSettings : Option SettingsDoc := none
  userSettings : Option SettingsDoc := none

/-- The installation record computed at step 10. -/
def HookEnv.installationOf (env : HookEnv) : InstallationInfo :=
  check_installation_status env.resolve env.script_name env.hookAbs env.projDir
    env.projSettings env.localSettings env.userSettings

/-- Step 9 guard and outcome: the runtime probe runs only when an event was
determined and an interpreter is known. -/
def probeStep (env : HookEnv) (ev : Option Str) (is_python is_bash : Bool) :
    ValidationResult :=
  match ev with
  | some e => if is_python || is_bash then runtimeTestStep env.jsonValid (env.probe e) else emptyR
  | none => emptyR

/-- Steps 6-9 of `validate_hook_script`: the findings recorded after the
syntax check. -/
def laterFindings (env : HookEnv) (event_hint : Option Str) (content : Str)
    (is_python is_bash : Bool) : ValidationResult :=
  let ev := effectiveEvent event_hint content
  stdinStep content is_python is_bash ++ eventStep ev content ++
    exitCodeStep content is_python is_bash ++ probeStep env ev is_python is_bash

/-- Steps 6-10 of `validate_hook_script` (everything after the syntax
check), appended to the result accumulated so far; step 10 always records
the installation status. -/
def afterChecks (env : HookEnv) (event_hint : Option Str) (content : Str)
    (is_python is_bash : Bool) (r : ValidationResult) : ValidationResult :=
  { r ++ laterFindings env event_hint content is_python is_bash with
    installation := some env.installationOf }

@[simp] theorem afterChecks_errors (env : HookEnv) (hint : Option Str) (content : Str)
    (p b : Bool) (r : ValidationResult) :
    (afterChecks env hint content p b r).errors =
      r.errors ++ (laterFindings env hint content p b).errors := rfl

@[simp] theorem afterChecks_warnings (env : HookEnv) (hint : Option Str) (content : Str)
    (p b : Bool) (r : ValidationResult) :
    (afterChecks env hint content p b r).warnings =
      r.warnings ++ (laterFindings env hint content p b).warnings := rfl

@[simp] theorem afterChecks_passed (env : HookEnv) (hint : Option Str) (content : Str)
    (p b : Bool) (r : ValidationResult) :
    (afterChecks env hint content p b r).passed =
      r.passed ++ (laterFindings env hint content p b).passed := rfl

@[simp] theorem afterChecks_installation (env : HookEnv) (hint : Option Str) (content : Str)
    (p b : Bool) (r : ValidationResult) :
    (afterChecks env hint content p b r).installation = some env.installationOf := rfl

/-- Steps 3-10 of `validate_hook_script`: reading the script's text and all
checks that follow.  A failed read (step 3) or a Python syntax error (step
5) returns immediately, so nothing later — in particular no installation
record — is produced on those paths; a bash syntax error does not return. -/
def restValidate (env : HookEnv) (event_hint : Option Str) : ValidationResult :=
  match env.read_content with
  | none => mkErrR ("Cannot read script: " ++ env.read_err)
  | some content =>
    let firstLine := content.takeWhile (fun c => c ≠ '\n')
    let lang := detectLang firstLine env.suffix
    let r4 := shebangFindings firstLine
    if lang.1 then
      match env.pyAstCheck content with
      | some (m, ln) =>
        r4 ++ mkErrR ("Python syntax error: " ++ m ++ " (line " ++ toString ln ++ ")")
      | none => afterChecks env event_hint content lang.1 lang.2 (r4 ++ mkOkR "Python syntax valid")
    else if lang.2 then
      afterChecks env event_hint content lang.1 lang.2 (r4 ++ bashSynFindings env.bashCheck)
    else afterChecks env event_hint content lang.1 lang.2 r4

/-- `validate_hook_script`: the per-script validation pipeline.  Checks run
in source order: existence, executable bit, readability, shebang, syntax
(a Python syntax error returns immediately; a bash one does not), stdin
handling, event detection with the Stop-reentry-guard check, exit-code
idioms, the runtime probe, and the installation status.  Result fragments
accumulate by appending, so the steps 1-2 findings followed by the
`restValidate` findings is exactly the source's sequential accumulation. -/
def validate_hook_script (env : HookEnv) (event_hint : Option Str) : ValidationResult :=
  if !env.script_exists then
    mkErrR ("Script not found: " ++ String.mk env.script_name)
  else
    mkOkR ("Script exists: " ++ String.mk env.script_name) ++
      (if !env.executable then mkErrR "Script is not executable (run: chmod +x)"
       else mkOkR "Script is executable") ++
      restValidate env event_hint

set_option maxRecDepth 4000

/-- A minimal concrete environment used by the sanity checks below: a valid
executable Python `PreToolUse` hook that is not registered anywhere. -/
def sampleEnv : HookEnv :=
  { script_exists := true
    script_name := sL "x.py"
    executable := true
    read_content := some (sL "#!/usr/bin/env python3\nimport json, sys\nd = json.loads(sys.stdin.read())\nprint(d[\x22tool_name\x22])\nsys.exit(0)\n")
    suffix := ".py"
    pyAstCheck := fun _ => none
    bashCheck := .passed
    probe := fun _ => .finished 0 "ok" ""
    jsonValid := fun _ => false
    resolve := fun s => some s
    hookAbs := sL "/proj/.claude/hooks/x.py"
    projDir := sL "/proj" }

example :
    validate_hook_script sampleEnv none =
      { errors := []
        warnings := []
        passed := [okTxt "Script exists: x.py", okTxt "Script is executable",
          okTxt "Valid Python shebang", okTxt "Python syntax valid",
          okTxt "Handles JSON input from stdin", okTxt "Detected event type: PreToolUse",
          okTxt "Uses exit(0) for success",
          okTxt "Runtime test passed (exit code: 0)", okTxt "Outputs text: ok"]
        installation := some {} } := by decide

/-- Python's `Path(part).name`: the final path component ("a/b/x.py" gives
"x.py"; trailing or doubled slashes are normalised away by `pathlib`). -/
def baseName (s : Str) : Str :=
  ((s.splitOn '/').filter (fun t => t ≠ [])).getLastD s

/-- The world one `validate_settings` call interacts with: the settings
file's existence, the parsed `hooks` mapping (or the JSON error text), the
display name used in messages, the project directory, and filesystem oracles
for the existence/executability checks on scripts referenced by commands. -/
structure SettingsEnv where
  fileFound : Bool
  parsed : Except String SettingsDoc
  displayName : String
  projDir : Str
  fsExists : Str → Bool
  fsExec : Str → Bool

/-- Placeholder expansion used by `validate_settings` (lines 624-625): two
`replace` calls, bare form first and double-quoted form second — a different
chain from `find_hook_in_settings`'s three-replace expansion. -/
def expandCommandSettings (projDir command : Str) : Str :=
  replaceAll dqPat projDir (replaceAll barePat projDir command)

/-- Validation of one hook descriptor by `validate_settings` (the inner `for
j, hook ...` body).  `evS` is the event name as message text. -/
def settingsHookFindings (env : SettingsEnv) (evS : String) (schema : EventSchema)
    (i j : Nat) (h : HookEntry) : ValidationResult :=
  let htype := h.htype.getD (sL "command")
  if htype = sL "command" then
    if h.command = [] then
      mkErrR (evS ++ "[" ++ toString i ++ "].hooks[" ++ toString j ++ "]: Empty command")
    else
      let expanded := expandCommandSettings env.projDir h.command
      match (splitWs expanded).find?
          (fun part => endsWithL part (sL ".py") || endsWithL part (sL ".sh")) with
      | some sp =>
        if env.fsExists sp then
          mkOkR (evS ++ ": Script exists: " ++ String.mk (baseName sp)) ++
            (if !env.fsExec sp then
              mkErrR (evS ++ ": Script not executable: " ++ String.mk (baseName sp))
            else emptyR)
        else mkErrR (evS ++ ": Script not found: " ++ String.mk sp)
      | none =>
        mkWarnR (evS ++ "[" ++ toString i ++ "].hooks[" ++ toString j ++
          "]: Could not identify script in command")
  else if htype = sL "prompt" then
    if h.prompt = [] then
      mkErrR (evS ++ "[" ++ toString i ++ "].hooks[" ++ toString j ++ "]: Empty prompt")
    else
      mkOkR (evS ++ ": Prompt-based hook configured") ++
        (if !schema.can_block then
          mkWarnR (evS ++ ": Prompt hooks on " ++ evS ++ " cannot block operations")
        else emptyR)
  else emptyR

/-- Folds a list of result fragments in order. -/
def combineR : List ValidationResult → ValidationResult
  | [] => emptyR
  | r :: rest => r ++ combineR rest

theorem combineR_append (a b : List ValidationResult) :
    combineR (a ++ b) = combineR a ++ combineR b := by
  induction a with
  | nil => simp [combineR]
  | cons r rest ih =>
    simp only [List.cons_append, combineR, List.append_eq, ih, resultAppend_assoc]

/-- Validation of one config object by `validate_settings` (the `for i,
config ...` body): the matcher-support warning plus the per-hook findings. -/
def settingsConfigFindings (env : SettingsEnv) (evS : String) (schema : EventSchema)
    (i : Nat) (cfg : HookConfig) : ValidationResult :=
  (if cfg.matcher.isSome && !schema.has_matcher then
    mkWarnR (evS ++ "[" ++ toString i ++ "]: Matcher specified but " ++ evS ++
      " doesn" ++ String.mk [sqC] ++ "t support matchers")
  else emptyR) ++
    combineR (cfg.hooks.enum.map (fun p => settingsHookFindings env evS schema i p.1 p.2))

/-- Validation of one event key of the `hooks` mapping: an unknown event
name is one error (and its configs are skipped); a known one has each of its
config objects validated. -/
def settingsEventFindings (env : SettingsEnv) (entry : Str × List HookConfig) :
    ValidationResult :=
  match lookupSchema entry.1 with
  | none => mkErrR ("Unknown event type: " ++ String.mk entry.1)
  | some schema =>
    combineR (entry.2.enum.map
      (fun p => settingsConfigFindings env (String.mk entry.1) schema p.1 p.2))

/-- Findings of all event keys, in document order. -/
def settingsEventsFindings (env : SettingsEnv) : SettingsDoc → ValidationResult
  | [] => emptyR
  | e :: rest => settingsEventFindings env e ++ settingsEventsFindings env rest

theorem settingsEventsFindings_append (env : SettingsEnv) (a b : SettingsDoc) :
    settingsEventsFindings env (a ++ b) =
      settingsEventsFindings env a ++ settingsEventsFindings env b := by
  induction a with
  | nil => simp [settingsEventsFindings]
  | cons e rest ih =>
    simp only [List.cons_append, settingsEventsFindings, List.append_eq, ih, resultAppend_assoc]

/-- `validate_settings`: validation of one settings layer.  A missing file is
informational only; malformed JSON is an error for this layer; otherwise each
event key of the `hooks` mapping is validated in order. -/
def validate_settings (env : SettingsEnv) : ValidationResult :=
  if !env.fileFound then
    mkInfoR (env.displayName ++ ": File not found (no hooks at this level)")
  else
    match env.parsed with
    | .error m => mkErrR ("Invalid JSON in " ++ env.displayName ++ ": " ++ m)
    | .ok hooks =>
      mkOkR (env.displayName ++ ": Valid JSON") ++
        (if hooks = [] then mkInfoR (env.displayName ++ ": No hooks configured")
         else
          mkOkR (env.displayName ++ ": " ++ toString hooks.length ++ " event type(s) configured") ++
            settingsEventsFindings env hooks)

example :
    validate_settings
      { fileFound := true
        parsed := .ok [(sL "Bogus", []),
          (sL "UserPromptSubmit", [⟨some (sL "x"), [⟨some (sL "prompt"), [], sL "Continue?"⟩]⟩])]
        displayName := "PROJECT"
        projDir := sL "/proj"
        fsExists := fun _ => true
        fsExec := fun _ => true } =
      { errors := [errTxt "Unknown event type: Bogus"]
        warnings := [warnTxt ("UserPromptSubmit[0]: Matcher specified but UserPromptSubmit doesn" ++
          String.mk [sqC] ++ "t support matchers")]
        passed := [okTxt "PROJECT: Valid JSON", okTxt "PROJECT: 2 event type(s) configured",
          okTxt "UserPromptSubmit: Prompt-based hook configured"] } := by decide

/-! ## Claims -/

/-- C6: for every `InstallationInfo` value, the scope description states
"Will run in ALL projects" iff the `user` boolean is true, and states "Will
NOT run (not registered in any settings file)" iff all three booleans
(`project`, `local`, `user`) are false — independently of the recorded
events and matchers and of any other report content. -/
theorem c6_scope_description (i : InstallationInfo) :
    (i.scope_description = "Will run in ALL projects" ↔ i.user = true) ∧
    (i.scope_description = "Will NOT run (not registered in any settings file)" ↔
      (i.project = false ∧ i.local_ = false ∧ i.user = false)) := by
  obtain ⟨p, l, u, ev, m⟩ := i
  cases p <;> cases l <;> cases u <;> simp_all [InstallationInfo.scope_description]

/-- C2 (counterexample to the claim as stated): `PreCompact` is a key of the
Event Schema Registry whose spec has an *empty* required-field sequence, so
not every registered event has at least one required payload field. -/
theorem c2_counterexample :
    (sL "PreCompact") ∈ EVENT_SCHEMAS.map Prod.fst ∧
    (lookupSchema (sL "PreCompact")).map EventSchema.required = some [] := by decide

/-- C2 (amended): lookup succeeds exactly on registry keys — every key yields
a spec, and every key other than `PreCompact` yields a spec with a non-empty
required-field sequence (`PreCompact`'s is empty); every non-key name yields
the deterministic not-found signal `none`. -/
theorem c2_lookup_spec (name : Str) :
    (name ∈ EVENT_SCHEMAS.map Prod.fst → (lookupSchema name).isSome = true) ∧
    (name ∈ EVENT_SCHEMAS.map Prod.fst → name ≠ sL "PreCompact" →
      (lookupSchema name).map (fun s => s.required.isEmpty) = some false) ∧
    (name ∉ EVENT_SCHEMAS.map Prod.fst → lookupSchema name = none) := by
  refine ⟨fun h => ?_, fun h hne => ?_, fun h => ?_⟩
  · fin_cases h <;> decide
  · fin_cases h <;> revert hne <;> decide
  · have hf : EVENT_SCHEMAS.find? (fun p => p.1 == name) = none := by
      rw [List.find?_eq_none]
      intro x hx
      simp only [beq_iff_eq]
      intro he
      exact h (List.mem_map.mpr ⟨x, hx, he⟩)
    simp [lookupSchema, hf]

theorem c2_lookup_spec_witness :
    (lookupSchema (sL "Stop")).isSome = true ∧
    (lookupSchema (sL "Stop")).map (fun s => s.required.isEmpty) = some false ∧
    lookupSchema (sL "Bogus") = none :=
  ⟨(c2_lookup_spec (sL "Stop")).1 (by decide),
   (c2_lookup_spec (sL "Stop")).2.1 (by decide) (by decide),
   (c2_lookup_spec (sL "Bogus")).2.2 (by decide)⟩

/-- C5: in the runtime probe, a finished subprocess with exit code 0, 1 or 2
is classified as a pass (no error recorded, the pass message present); every
other exit code is recorded as an error; and exit code 2 with empty stdout
yields exactly the single pass finding — no JSON-output check fires and no
stderr warning (exit code 2 suppresses it). -/
theorem c5_runtime_probe (jsonValid : String → Bool) (code : Int) (out errS : String) :
    ((code = 0 ∨ code = 1 ∨ code = 2) →
      (runtimeTestStep jsonValid (.finished code out errS)).errors = [] ∧
      okTxt ("Runtime test passed (exit code: " ++ toString code ++ ")") ∈
        (runtimeTestStep jsonValid (.finished code out errS)).passed) ∧
    (¬(code = 0 ∨ code = 1 ∨ code = 2) →
      (runtimeTestStep jsonValid (.finished code out errS)).errors =
        [errTxt ("Unexpected exit code: " ++ toString code)]) ∧
    (code = 2 → stripS out = "" →
      runtimeTestStep jsonValid (.finished code out errS) =
        mkOkR "Runtime test passed (exit code: 2)") := by
  refine ⟨fun h => ?_, fun h => ?_, fun h2 hout => ?_⟩
  · simp [runtimeTestStep, if_pos h, apply_ite ValidationResult.errors,
      apply_ite ValidationResult.passed, mkOkR, mkWarnR, emptyR, ite_self]
  · simp [runtimeTestStep, if_neg h, apply_ite ValidationResult.errors,
      mkErrR, mkWarnR, emptyR, ite_self]
  · subst h2
    have h1 : ((2:Int) = 0 ∨ (2:Int) = 1 ∨ (2:Int) = 2) := by norm_num
    simp only [runtimeTestStep, if_pos h1, hout, ne_eq, not_true_eq_false, if_false,
      not_false_eq_true, and_false, append_emptyR]
    rfl

theorem c5_runtime_probe_witness :
    (runtimeTestStep (fun _ => false) (.finished 2 "" "boom")).errors = [] ∧
    okTxt ("Runtime test passed (exit code: " ++ toString (2 : Int) ++ ")") ∈
      (runtimeTestStep (fun _ => false) (.finished 2 "" "boom")).passed ∧
    (runtimeTestStep (fun _ => false) (.finished 7 "" "")).errors =
      [errTxt ("Unexpected exit code: " ++ toString (7 : Int))] ∧
    runtimeTestStep (fun _ => false) (.finished 2 "" "boom") =
      mkOkR "Runtime test passed (exit code: 2)" :=
  ⟨((c5_runtime_probe (fun _ => false) 2 "" "boom").1 (by decide)).1,
   ((c5_runtime_probe (fun _ => false) 2 "" "boom").1 (by decide)).2,
   (c5_runtime_probe (fun _ => false) 7 "" "").2.1 (by decide),
   (c5_runtime_probe (fun _ => false) 2 "" "boom").2.2 rfl (by decide)⟩

/-- `restValidate` never inspects the executable bit: steps 3-10 behave
identically whatever it is. -/
theorem restValidate_exec_irrel (env : HookEnv) (hint : Option Str) (b : Bool) :
    restValidate { env with executable := b } hint = restValidate env hint := by
  obtain ⟨se, sn, xx, rc, re, sfx, pyc, bc, pb, jv, rs, ha, pd, ps, ls, us⟩ := env
  rfl

/-- C10: a script that exists but is not executable gets exactly the
not-executable error added in front of the errors it would otherwise have;
warnings and the installation record are unchanged (all remaining checks
still run), and the report's success predicate is false. -/
theorem c10_not_executable (env : HookEnv) (hint : Option Str)
    (hex : env.script_exists = true) (hx : env.executable = false) :
    (validate_hook_script env hint).errors =
      errTxt "Script is not executable (run: chmod +x)" ::
        (validate_hook_script { env with executable := true } hint).errors ∧
    (validate_hook_script env hint).warnings =
      (validate_hook_script { env with executable := true } hint).warnings ∧
    (validate_hook_script env hint).installation =
      (validate_hook_script { env with executable := true } hint).installation ∧
    (validate_hook_script env hint).success = false := by
  obtain ⟨se, sn, xx, rc, re, sfx, pyc, bc, pb, jv, rs, ha, pd, ps, ls, us⟩ := env
  cases hex
  cases hx
  have hR : restValidate
      (HookEnv.mk true sn true rc re sfx pyc bc pb jv rs ha pd ps ls us) hint =
      restValidate (HookEnv.mk true sn false rc re sfx pyc bc pb jv rs ha pd ps ls us) hint :=
    restValidate_exec_irrel (HookEnv.mk true sn false rc re sfx pyc bc pb jv rs ha pd ps ls us) hint true
  simp only [validate_hook_script, Bool.not_true, Bool.not_false, Bool.false_eq_true,
    if_false, if_true, hR]
  refine ⟨?_, ?_, ?_, ?_⟩ <;>
    simp [mkOkR, mkErrR, installation_append, ValidationResult.success]

theorem c10_not_executable_witness :
    let envT : HookEnv :=
      { sampleEnv with executable := true }
    let envF : HookEnv :=
      { sampleEnv with executable := false }
    (validate_hook_script envF none).errors =
      errTxt "Script is not executable (run: chmod +x)" ::
        (validate_hook_script envT none).errors ∧
    (validate_hook_script envF none).warnings = (validate_hook_script envT none).warnings ∧
    (validate_hook_script envF none).installation =
      (validate_hook_script envT none).installation ∧
    (validate_hook_script envF none).success = false := by
  have h := c10_not_executable { sampleEnv with executable := false } none rfl rfl
  simpa using h

/-- C9: a missing settings file yields the single informational finding and
a succeeding report; and a settings document containing an event key unknown
to the Event Schema Registry yields exactly one error for that key, while
every other event key of the document contributes exactly the findings it
would contribute anyway (validation of the other keys is unaffected). -/
theorem c9_settings_validation (env : SettingsEnv) (pre post : SettingsDoc) (ev : Str)
    (cfgs : List HookConfig) :
    (env.fileFound = false →
      validate_settings env =
        mkInfoR (env.displayName ++ ": File not found (no hooks at this level)") ∧
      (validate_settings env).success = true) ∧
    (env.fileFound = true → env.parsed = .ok (pre ++ (ev, cfgs) :: post) →
      lookupSchema ev = none →
      validate_settings env =
        mkOkR (env.displayName ++ ": Valid JSON") ++
          (mkOkR (env.displayName ++ ": " ++ toString (pre ++ (ev, cfgs) :: post).length ++
            " event type(s) configured") ++
          (settingsEventsFindings env pre ++
            (mkErrR ("Unknown event type: " ++ String.mk ev) ++
              settingsEventsFindings env post)))) := by
  constructor
  · intro h
    refine ⟨by simp [validate_settings, h], ?_⟩
    simp [validate_settings, h, ValidationResult.success, mkInfoR]
  · intro h1 h2 h3
    have hne : pre ++ (ev, cfgs) :: post ≠ [] := by simp
    simp only [validate_settings, h1, Bool.not_true, Bool.false_eq_true, if_false, h2,
      if_neg hne, settingsEventsFindings_append, settingsEventsFindings,
      settingsEventFindings, h3, append_emptyR, resultAppend_assoc]

theorem c9_settings_validation_witness :
    (validate_settings
        { fileFound := false, parsed := .ok [], displayName := "LOCAL",
          projDir := sL "/proj", fsExists := fun _ => true, fsExec := fun _ => true } =
      mkInfoR "LOCAL: File not found (no hooks at this level)" ∧
      (validate_settings
        { fileFound := false, parsed := .ok [], displayName := "LOCAL",
          projDir := sL "/proj", fsExists := fun _ => true, fsExec := fun _ => true }).success
        = true) ∧
    validate_settings
        { fileFound := true,
          parsed := .ok [(sL "PreCompact", []), (sL "Bogus", []), (sL "Stop", [])],
          displayName := "PROJECT", projDir := sL "/proj",
          fsExists := fun _ => true, fsExec := fun _ => true } =
      mkOkR "PROJECT: Valid JSON" ++
        (mkOkR "PROJECT: 3 event type(s) configured" ++
        (settingsEventsFindings
          { fileFound := true,
            parsed := .ok [(sL "PreCompact", []), (sL "Bogus", []), (sL "Stop", [])],
            displayName := "PROJECT", projDir := sL "/proj",
            fsExists := fun _ => true, fsExec := fun _ => true } [(sL "PreCompact", [])] ++
          (mkErrR "Unknown event type: Bogus" ++
            settingsEventsFindings
              { fileFound := true,
                parsed := .ok [(sL "PreCompact", []), (sL "Bogus", []), (sL "Stop", [])],
                displayName := "PROJECT", projDir := sL "/proj",
                fsExists := fun _ => true, fsExec := fun _ => true } [(sL "Stop", [])]))) :=
  ⟨(c9_settings_validation
      { fileFound := false, parsed := .ok [], displayName := "LOCAL",
        projDir := sL "/proj", fsExists := fun _ => true, fsExec := fun _ => true }
      [] [] [] []).1 rfl,
   (c9_settings_validation
      { fileFound := true,
        parsed := .ok [(sL "PreCompact", []), (sL "Bogus", []), (sL "Stop", [])],
        displayName := "PROJECT", projDir := sL "/proj",
        fsExists := fun _ => true, fsExec := fun _ => true }
      [(sL "PreCompact", [])] [(sL "Stop", [])] (sL "Bogus") []).2 rfl rfl (by decide)⟩

/-- A fixed string `t` differs from every error message of shape
`errTxt (pre ++ m)` whose constant part is not a prefix of `t`'s data. -/
theorem ne_errTxt_append (pre m t : String)
    (h : ¬ ((errTxt pre).data <+: t.data)) : t ≠ errTxt (pre ++ m) := by
  intro he
  apply h
  rw [he]
  refine ⟨m.data, ?_⟩
  show ("❌ ".data ++ pre.data) ++ m.data = "❌ ".data ++ (pre.data ++ m.data)
  rw [List.append_assoc]

/-- The infinite-loop-risk error recorded for Stop/SubagentStop hooks that
never read the reentry-guard field. -/
def stopLoopErr : String :=
  errTxt "Stop hook missing stop_hook_active check (infinite loop risk!)"

theorem stdinStep_errors (c : Str) (p b : Bool) : (stdinStep c p b).errors = [] := by
  simp [stdinStep, apply_ite ValidationResult.errors, mkOkR, mkWarnR, emptyR, ite_self]

theorem exitCodeStep_errors (c : Str) (p b : Bool) : (exitCodeStep c p b).errors = [] := by
  simp [exitCodeStep, apply_ite ValidationResult.errors, mkOkR, mkWarnR, emptyR, ite_self]

theorem execFragment_count_stopLoopErr (x : Bool) :
    ((if !x then mkErrR "Script is not executable (run: chmod +x)"
      else mkOkR "Script is executable").errors).count stopLoopErr = 0 := by
  cases x <;> simp [mkErrR, mkOkR, stopLoopErr] <;> decide

theorem shebangFindings_count_stopLoopErr (fl : Str) :
    ((shebangFindings fl).errors).count stopLoopErr = 0 := by
  unfold shebangFindings
  split
  · simp [mkErrR, stopLoopErr]
    decide
  · split
    · simp [mkOkR]
    · split <;> simp [mkOkR, mkWarnR]

theorem bashSynFindings_count_stopLoopErr (bc : BashSynRes) :
    ((bashSynFindings bc).errors).count stopLoopErr = 0 := by
  cases bc with
  | failed m =>
    simp only [bashSynFindings, mkErrR, List.count_eq_zero, List.mem_singleton]
    exact ne_errTxt_append "Bash syntax error: " m stopLoopErr (by decide)
  | passed => simp [bashSynFindings, mkOkR]
  | timedOut => simp [bashSynFindings, mkWarnR]
  | bashMissing => simp [bashSynFindings, mkWarnR]

theorem runtimeTestStep_count_stopLoopErr (jv : String → Bool) (pr : ProbeRes) :
    ((runtimeTestStep jv pr).errors).count stopLoopErr = 0 := by
  cases pr with
  | finished code out errS =>
    simp only [runtimeTestStep, errors_append, List.count_append]
    have h1 : ((if stripS errS ≠ "" ∧ code ≠ 2 then
        mkWarnR ("Stderr output: " ++ (stripS errS).take 100) else emptyR).errors).count
        stopLoopErr = 0 := by
      split <;> simp [mkWarnR, emptyR]
    rw [h1]
    by_cases hc : (code = 0 ∨ code = 1 ∨ code = 2)
    · rw [if_pos hc]
      simp [mkOkR, emptyR, apply_ite ValidationResult.errors, ite_self]
    · rw [if_neg hc]
      simp only [mkErrR, List.count_eq_zero, List.mem_singleton, Nat.add_zero]
      exact ne_errTxt_append "Unexpected exit code: " (toString code) stopLoopErr (by decide)
  | timedOut =>
    simp [runtimeTestStep, mkErrR, stopLoopErr]
    decide
  | launchFail m =>
    simp only [runtimeTestStep, mkErrR, List.count_eq_zero, List.mem_singleton]
    exact ne_errTxt_append "Runtime test failed: " m stopLoopErr (by decide)

theorem probeStep_count_stopLoopErr (env : HookEnv) (ev : Option Str) (p b : Bool) :
    ((probeStep env ev p b).errors).count stopLoopErr = 0 := by
  cases ev with
  | none => simp [probeStep, emptyR]
  | some e =>
    simp only [probeStep]
    split
    · exact runtimeTestStep_count_stopLoopErr env.jsonValid (env.probe e)
    · simp [emptyR]

theorem laterFindings_count_stopLoopErr (env : HookEnv) (hint : Option Str) (content : Str)
    (p b : Bool) (e : Str)
    (hE : effectiveEvent hint content = some e)
    (hSe : e = sL "Stop" ∨ e = sL "SubagentStop")
    (hguard : containsL (sL "stop_hook_active") content = false) :
    ((laterFindings env hint content p b).errors).count stopLoopErr = 1 := by
  have hEv : (eventStep (effectiveEvent hint content) content).errors = [stopLoopErr] := by
    rw [hE]
    rcases hSe with rfl | rfl <;>
      simp [eventStep, hguard, mkOkR, mkErrR, stopLoopErr]
  simp [laterFindings, List.count_append, hEv, stdinStep_errors, exitCodeStep_errors,
    probeStep_count_stopLoopErr]

/-- C8: a script whose effective event (explicit hint or inference) is Stop
or SubagentStop and whose content never mentions `stop_hook_active` gets
exactly one infinite-loop-risk error, and the report fails.  The script is
assumed to exist, be readable, and not be aborted by a Python syntax error
(on that path step 7 is never reached — see C3). -/
theorem c8_stop_guard (env : HookEnv) (hint : Option Str) (content : Str) (e : Str)
    (hex : env.script_exists = true) (hrc : env.read_content = some content)
    (hE : effectiveEvent hint content = some e)
    (hSe : e = sL "Stop" ∨ e = sL "SubagentStop")
    (hguard : containsL (sL "stop_hook_active") content = false)
    (hpy : (detectLang (content.takeWhile (fun c => c ≠ '\n')) env.suffix).1 = true →
      env.pyAstCheck content = none) :
    ((validate_hook_script env hint).errors).count stopLoopErr = 1 ∧
    (validate_hook_script env hint).success = false := by
  have key : ((validate_hook_script env hint).errors).count stopLoopErr = 1 := by
    simp only [validate_hook_script, hex, Bool.not_true, Bool.false_eq_true, if_false,
      errors_append, List.count_append]
    have hok : ((mkOkR ("Script exists: " ++ String.mk env.script_name)).errors).count
        stopLoopErr = 0 := by simp [mkOkR]
    rw [hok, execFragment_count_stopLoopErr]
    simp only [restValidate, hrc]
    by_cases hP : (detectLang (content.takeWhile (fun c => c ≠ '\n')) env.suffix).1 = true
    · rw [if_pos hP, hpy hP]
      simp only [afterChecks_errors, List.count_append, errors_append]
      rw [shebangFindings_count_stopLoopErr,
        laterFindings_count_stopLoopErr env hint content _ _ e hE hSe hguard]
      simp [mkOkR]
    · rw [if_neg hP]
      by_cases hB : (detectLang (content.takeWhile (fun c => c ≠ '\n')) env.suffix).2 = true
      · rw [if_pos hB]
        simp only [afterChecks_errors, List.count_append, errors_append]
        rw [shebangFindings_count_stopLoopErr, bashSynFindings_count_stopLoopErr,
          laterFindings_count_stopLoopErr env hint content _ _ e hE hSe hguard]
      · rw [if_neg hB]
        simp only [afterChecks_errors, List.count_append]
        rw [shebangFindings_count_stopLoopErr,
          laterFindings_count_stopLoopErr env hint content _ _ e hE hSe hguard]
  refine ⟨key, ?_⟩
  rcases h : (validate_hook_script env hint).errors with _ | ⟨a, t⟩
  · rw [h] at key
    simp at key
  · simp [ValidationResult.success, h]

theorem c8_stop_guard_witness :
    let env : HookEnv :=
      { script_exists := true, script_name := sL "stopper.sh", executable := true,
        read_content := some (sL "#!/bin/bash\nexit 0\n"), suffix := ".sh",
        pyAstCheck := fun _ => none, bashCheck := .passed,
        probe := fun _ => .finished 0 "" "", jsonValid := fun _ => false,
        resolve := fun s => some s, hookAbs := sL "/proj/.claude/hooks/stopper.sh",
        projDir := sL "/proj" }
    ((validate_hook_script env (some (sL "Stop"))).errors).count stopLoopErr = 1 ∧
    (validate_hook_script env (some (sL "Stop"))).success = false := by
  intro env
  exact c8_stop_guard env (some (sL "Stop")) (sL "#!/bin/bash\nexit 0\n") (sL "Stop")
    rfl rfl (by decide) (Or.inl rfl) (by decide) (by intro h; rfl)

theorem shebangFindings_installation (fl : Str) : (shebangFindings fl).installation = none := by
  unfold shebangFindings
  split
  · rfl
  · split
    · rfl
    · split <;> rfl

theorem probeStep_noInterp (env : HookEnv) (ev : Option Str) :
    probeStep env ev false false = emptyR := by
  cases ev <;> simp [probeStep]

/-- C3 (counterexample to the claim as stated): a bash script whose `bash -n`
syntax check fails still has its stdin-handling check run (the pass finding
is recorded), its event detection run (the warning is recorded) and its
installation status computed — the bash branch does not short-circuit. -/
theorem c3_counterexample :
    let env : HookEnv :=
      { script_exists := true, script_name := sL "h.sh", executable := true,
        read_content := some (sL "#!/bin/bash\ncat\nexit 0\n"), suffix := ".sh",
        pyAstCheck := fun _ => none,
        bashCheck := .failed "unexpected end of file",
        probe := fun _ => .finished 0 "" "", jsonValid := fun _ => false,
        resolve := fun s => some s, hookAbs := sL "/proj/.claude/hooks/h.sh",
        projDir := sL "/proj" }
    (validate_hook_script env none).errors =
      [errTxt "Bash syntax error: unexpected end of file"] ∧
    okTxt "Reads input from stdin" ∈ (validate_hook_script env none).passed ∧
    warnTxt "Could not detect event type from script content" ∈
      (validate_hook_script env none).warnings ∧
    (validate_hook_script env none).installation ≠ none := by decide

/-- C3 (amended): a Python syntax error reports the error and
short-circuits — the result is exactly the step 1-4 findings plus the syntax
error, with no stdin/event/exit-code/probe findings and no installation
record, and the report fails.  A bash syntax error reports the error and
fails the report, but the remaining checks still run: the errors are the
step 1-4 errors, then the bash syntax error, then whatever errors the later
checks produce, and the installation record is still computed. -/
theorem c3_syntax_behavior (env : HookEnv) (hint : Option Str) (content : Str)
    (msg : String) (ln : Nat) (m : String)
    (hex : env.script_exists = true) (hrc : env.read_content = some content) :
    ((detectLang (content.takeWhile (fun c => c ≠ '\n')) env.suffix).1 = true →
      env.pyAstCheck content = some (msg, ln) →
      validate_hook_script env hint =
        mkOkR ("Script exists: " ++ String.mk env.script_name) ++
          ((if !env.executable then mkErrR "Script is not executable (run: chmod +x)"
            else mkOkR "Script is executable") ++
            (shebangFindings (content.takeWhile (fun c => c ≠ '\n')) ++
              mkErrR ("Python syntax error: " ++ msg ++ " (line " ++ toString ln ++ ")"))) ∧
      (validate_hook_script env hint).installation = none ∧
      (validate_hook_script env hint).success = false) ∧
    (detectLang (content.takeWhile (fun c => c ≠ '\n')) env.suffix = (false, true) →
      env.bashCheck = .failed m →
      (validate_hook_script env hint).errors =
        (if !env.executable then [errTxt "Script is not executable (run: chmod +x)"] else []) ++
          ((shebangFindings (content.takeWhile (fun c => c ≠ '\n'))).errors ++
            (errTxt ("Bash syntax error: " ++ m) ::
              (laterFindings env hint content false true).errors)) ∧
      (validate_hook_script env hint).installation = some env.installationOf ∧
      (validate_hook_script env hint).success = false) := by
  constructor
  · intro hP hpc
    have hval : validate_hook_script env hint =
        mkOkR ("Script exists: " ++ String.mk env.script_name) ++
          ((if !env.executable then mkErrR "Script is not executable (run: chmod +x)"
            else mkOkR "Script is executable") ++
            (shebangFindings (content.takeWhile (fun c => c ≠ '\n')) ++
              mkErrR ("Python syntax error: " ++ msg ++ " (line " ++ toString ln ++ ")"))) := by
      simp only [validate_hook_script, hex, Bool.not_true, Bool.false_eq_true, if_false,
        restValidate, hrc, hP, if_true, hpc, resultAppend_assoc]
    refine ⟨hval, ?_, ?_⟩
    · rw [hval]
      simp only [installation_append, shebangFindings_installation, mkErrR, mkOkR,
        apply_ite ValidationResult.installation, ite_self]
    · rw [hval]
      simp only [ValidationResult.success, errors_append, mkOkR, mkErrR]
      simp [apply_ite ValidationResult.errors, ite_self]
  · intro hL hbc
    have hval : validate_hook_script env hint =
        mkOkR ("Script exists: " ++ String.mk env.script_name) ++
          ((if !env.executable then mkErrR "Script is not executable (run: chmod +x)"
            else mkOkR "Script is executable") ++
            afterChecks env hint content false true
              (shebangFindings (content.takeWhile (fun c => c ≠ '\n')) ++
                mkErrR ("Bash syntax error: " ++ m))) := by
      simp only [validate_hook_script, hex, Bool.not_true, Bool.false_eq_true, if_false,
        restValidate, hrc, hL, if_true, hbc, bashSynFindings, resultAppend_assoc]
    refine ⟨?_, ?_, ?_⟩
    · rw [hval]
      simp [mkOkR, mkErrR, apply_ite ValidationResult.errors, ite_self,
        apply_ite (List.count stopLoopErr)]
    · rw [hval]
      simp [installation_append]
    · rw [hval]
      simp only [ValidationResult.success, errors_append, afterChecks_errors, mkOkR, mkErrR]
      simp [apply_ite ValidationResult.errors, ite_self]

theorem c3_syntax_behavior_witness :
    let envPy : HookEnv :=
      { script_exists := true, script_name := sL "b.py", executable := true,
        read_content := some (sL "#!/usr/bin/env python3\ndef f(:\n"), suffix := ".py",
        pyAstCheck := fun _ => some ("invalid syntax", 2),
        bashCheck := .passed, probe := fun _ => .finished 0 "" "",
        jsonValid := fun _ => false, resolve := fun s => some s,
        hookAbs := sL "/p/b.py", projDir := sL "/p" }
    let envSh : HookEnv :=
      { script_exists := true, script_name := sL "h.sh", executable := true,
        read_content := some (sL "#!/bin/bash\ncat\n"), suffix := ".sh",
        pyAstCheck := fun _ => none,
        bashCheck := .failed "oops", probe := fun _ => .finished 0 "" "",
        jsonValid := fun _ => false, resolve := fun s => some s,
        hookAbs := sL "/p/h.sh", projDir := sL "/p" }
    (validate_hook_script envPy none =
      mkOkR "Script exists: b.py" ++
        (mkOkR "Script is executable" ++
          (shebangFindings (sL "#!/usr/bin/env python3") ++
            mkErrR "Python syntax error: invalid syntax (line 2)")) ∧
      (validate_hook_script envPy none).installation = none ∧
      (validate_hook_script envPy none).success = false) ∧
    ((validate_hook_script envSh none).errors =
      [] ++ ((shebangFindings (sL "#!/bin/bash")).errors ++
        (errTxt "Bash syntax error: oops" ::
          (laterFindings envSh none (sL "#!/bin/bash\ncat\n") false true).errors)) ∧
      (validate_hook_script envSh none).installation = some envSh.installationOf ∧
      (validate_hook_script envSh none).success = false) := by
  intro envPy envSh
  constructor
  · have h := (c3_syntax_behavior envPy none (sL "#!/usr/bin/env python3\ndef f(:\n")
      "invalid syntax" 2 "" rfl rfl).1 (by decide) rfl
    simpa using h
  · have h := (c3_syntax_behavior envSh none (sL "#!/bin/bash\ncat\n")
      "" 0 "oops" rfl rfl).2 (by decide) rfl
    simpa using h

/-- C4 (counterexample to the claim as stated): a `.py` script without a
shebang records the missing-shebang error, but the interpreter-dependent
checks do *not* run on an extension-based guess — the result contains no
syntax/stdin/exit-code/probe finding at all (the extension fallback only
applies to the unusual-shebang branch). -/
theorem c4_counterexample :
    let env : HookEnv :=
      { script_exists := true, script_name := sL "x.py", executable := true,
        read_content := some (sL "x = 1\n"), suffix := ".py",
        pyAstCheck := fun _ => none, bashCheck := .passed,
        probe := fun _ => .finished 0 "" "", jsonValid := fun _ => false,
        resolve := fun s => some s, hookAbs := sL "/p/x.py", projDir := sL "/p" }
    validate_hook_script env none =
      { errors := [errTxt "Missing shebang (should start with #!/usr/bin/env python3 or #!/bin/bash)"],
        warnings := [warnTxt "Could not detect event type from script content"],
        passed := [okTxt "Script exists: x.py", okTxt "Script is executable"],
        installation := some {} } := by decide

/-- C4 (amended): a readable, executable script without a shebang records
exactly one error — the missing-shebang error — and the interpreter stays
unknown (no extension-based fallback), so the interpreter-dependent checks
(syntax, stdin handling, exit-code idioms, runtime probe) are all skipped;
event detection and the installation check still run, and their findings are
the only other findings.  (The hypothesis on `eventStep` excludes the
independent Stop-guard error of C8.) -/
theorem c4_missing_shebang (env : HookEnv) (hint : Option Str) (content : Str)
    (hex : env.script_exists = true) (hx : env.executable = true)
    (hrc : env.read_content = some content)
    (hsb : (sL "#!").isPrefixOf (content.takeWhile (fun c => c ≠ '\n')) = false)
    (hev : (eventStep (effectiveEvent hint content) content).errors = []) :
    (validate_hook_script env hint).errors =
      [errTxt "Missing shebang (should start with #!/usr/bin/env python3 or #!/bin/bash)"] ∧
    (validate_hook_script env hint).warnings =
      (eventStep (effectiveEvent hint content) content).warnings ∧
    (validate_hook_script env hint).passed =
      okTxt ("Script exists: " ++ String.mk env.script_name) ::
        okTxt "Script is executable" ::
        (eventStep (effectiveEvent hint content) content).passed ∧
    (validate_hook_script env hint).installation = some env.installationOf := by
  have hL : detectLang (content.takeWhile (fun c => c ≠ '\n')) env.suffix = (false, false) := by
    unfold detectLang
    rw [hsb]
    rfl
  have hsf : shebangFindings (content.takeWhile (fun c => c ≠ '\n')) =
      mkErrR "Missing shebang (should start with #!/usr/bin/env python3 or #!/bin/bash)" := by
    unfold shebangFindings
    rw [hsb]
    rfl
  have hval : validate_hook_script env hint =
      mkOkR ("Script exists: " ++ String.mk env.script_name) ++
        (mkOkR "Script is executable" ++
          afterChecks env hint content false false
            (mkErrR "Missing shebang (should start with #!/usr/bin/env python3 or #!/bin/bash)")) := by
    simp only [validate_hook_script, hex, hx, Bool.not_true, Bool.false_eq_true, if_false,
      restValidate, hrc, hL, hsf, resultAppend_assoc]
  rw [hval]
  have hlf : laterFindings env hint content false false =
      eventStep (effectiveEvent hint content) content := by
    simp [laterFindings, stdinStep, exitCodeStep, probeStep_noInterp]
  refine ⟨?_, ?_, ?_, ?_⟩ <;>
    simp [hlf, hev, mkOkR, mkErrR, installation_append]

theorem c4_missing_shebang_witness :
    let env : HookEnv :=
      { script_exists := true, script_name := sL "y.py", executable := true,
        read_content := some (sL "import sys\n"), suffix := ".py",
        pyAstCheck := fun _ => none, bashCheck := .passed,
        probe := fun _ => .finished 0 "" "", jsonValid := fun _ => false,
        resolve := fun s => some s, hookAbs := sL "/p/y.py", projDir := sL "/p" }
    (validate_hook_script env none).errors =
      [errTxt "Missing shebang (should start with #!/usr/bin/env python3 or #!/bin/bash)"] ∧
    (validate_hook_script env none).warnings =
      (eventStep (effectiveEvent none (sL "import sys\n")) (sL "import sys\n")).warnings ∧
    (validate_hook_script env none).passed =
      okTxt "Script exists: y.py" :: okTxt "Script is executable" ::
        (eventStep (effectiveEvent none (sL "import sys\n")) (sL "import sys\n")).passed ∧
    (validate_hook_script env none).installation = some env.installationOf := by
  intro env
  exact c4_missing_shebang env none (sL "import sys\n") rfl rfl rfl (by decide) (by decide)

/-- C1 (counterexample to the claim as stated): with an identity path
resolver, the command token `/other/x.py` resolves *successfully* to
`/other/x.py`, which differs from the script's absolute path
`/proj/.claude/hooks/x.py` — yet `find_hook_in_settings` still reports a
match, because the string-suffix fallback runs whenever the resolved-path
comparison did not succeed, not only when resolution fails. -/
theorem c1_counterexample :
    (fun (s : Str) => some s) (sL "/other/x.py") = some (sL "/other/x.py") ∧
    sL "/other/x.py" ≠ sL "/proj/.claude/hooks/x.py" ∧
    find_hook_in_settings (fun s => some s)
      (some [(sL "PreToolUse", [⟨none, [⟨none, sL "python3 /other/x.py", []⟩]⟩])])
      (sL "x.py") (sL "/proj/.claude/hooks/x.py") (sL "/proj")
      = (true, [sL "PreToolUse"], []) := by decide

/-- Per-token match semantics: a token matches exactly when it contains the
filename and either resolves to the script's absolute path or ends with the
filename — so the suffix fallback applies both when resolution fails and
when it succeeds with a different path. -/
theorem partMatches_iff (resolve : Str → Option Str) (hookAbs hookName part : Str) :
    partMatches resolve hookAbs hookName part = true ↔
      (containsL hookName part = true ∧
        (resolve part = some hookAbs ∨ endsWithL part hookName = true)) := by
  unfold partMatches
  cases hr : resolve part with
  | some p => simp [hr]
  | none => simp [hr]

/-- C1 (amended): for a single command-type hook entry, the Installation
Locator reports the script as found iff the expanded command mentions the
script's filename and some whitespace token of the quote-stripped expansion
contains the filename and either resolves to the script's absolute path
(the authoritative test) or ends with the filename (the fallback, which
also applies when resolution succeeded with a different path). -/
theorem c1_match_semantics (resolve : Str → Option Str) (hookName hookAbs projDir ev : Str)
    (matcher ht : Option Str) (cmd pr : Str)
    (hcmd : cmd ≠ []) (hht : ht.getD (sL "command") = sL "command") :
    (find_hook_in_settings resolve (some [(ev, [⟨matcher, [⟨ht, cmd, pr⟩]⟩])])
        hookName hookAbs projDir).1 = true ↔
      (containsL hookName (expandCommand projDir cmd) = true ∧
        ∃ part ∈ splitWs (cleanQuotes (expandCommand projDir cmd)),
          containsL hookName part = true ∧
            (resolve part = some hookAbs ∨ endsWithL part hookName = true)) := by
  have hem : entryMatch resolve hookName hookAbs projDir ev (matcher.getD (sL "*")) ⟨ht, cmd, pr⟩ =
      if containsL hookName (expandCommand projDir cmd) then
        (if (splitWs (cleanQuotes (expandCommand projDir cmd))).any
            (partMatches resolve hookAbs hookName) then
          some (ev, if matcher.getD (sL "*") ≠ sL "*" then some (matcher.getD (sL "*")) else none)
        else none)
      else none := by
    unfold entryMatch
    simp only [hht, ne_eq, not_true_eq_false, if_false, hcmd, if_neg (fun h => hcmd h)]
  simp only [find_hook_in_settings, collectMatches, collectConfigs, collectHooks,
    List.append_nil, hem]
  constructor
  · intro h
    by_cases h1 : containsL hookName (expandCommand projDir cmd) = true
    · refine ⟨h1, ?_⟩
      by_cases h2 : (splitWs (cleanQuotes (expandCommand projDir cmd))).any
          (partMatches resolve hookAbs hookName) = true
      · obtain ⟨part, hmem, hp⟩ := List.any_eq_true.mp h2
        exact ⟨part, hmem, (partMatches_iff resolve hookAbs hookName part).mp hp⟩
      · rw [if_pos h1, if_neg h2] at h
        simp at h
    · rw [if_neg h1] at h
      simp at h
  · rintro ⟨h1, part, hmem, hp⟩
    have h2 : (splitWs (cleanQuotes (expandCommand projDir cmd))).any
        (partMatches resolve hookAbs hookName) = true :=
      List.any_eq_true.mpr ⟨part, hmem, (partMatches_iff resolve hookAbs hookName part).mpr hp⟩
    rw [if_pos h1, if_pos h2]
    simp

theorem c1_match_semantics_witness :
    ((find_hook_in_settings (fun s => some s)
        (some [(sL "Stop", [⟨none, [⟨none, sL "bash /elsewhere/g.sh", []⟩]⟩])])
        (sL "g.sh") (sL "/proj/.claude/hooks/g.sh") (sL "/proj")).1 = true ↔
      (containsL (sL "g.sh") (expandCommand (sL "/proj") (sL "bash /elsewhere/g.sh")) = true ∧
        ∃ part ∈ splitWs (cleanQuotes (expandCommand (sL "/proj") (sL "bash /elsewhere/g.sh"))),
          containsL (sL "g.sh") part = true ∧
            ((fun (s : Str) => some s) part = some (sL "/proj/.claude/hooks/g.sh") ∨
              endsWithL part (sL "g.sh") = true))) :=
  c1_match_semantics (fun s => some s) (sL "g.sh") (sL "/proj/.claude/hooks/g.sh")
    (sL "/proj") (sL "Stop") none none (sL "bash /elsewhere/g.sh") []
    (by decide) rfl

/-- `replace` is the identity on a string that nowhere contains the
pattern's head character. -/
theorem replaceAll_head_notMem (c : Char) (pt rep : Str) :
    ∀ (s : Str), c ∉ s → replaceAll (c :: pt) rep s = s := by
  intro s
  induction s with
  | nil => intro _; rfl
  | cons a t ih =>
    intro h
    rw [replaceAll_cons, if_neg ?_, ih (fun hm => h (List.mem_cons_of_mem a hm))]
    rintro ⟨-, hpre⟩
    exact h (((List.isPrefixOf_iff_prefix.mp hpre).sublist).subset (List.mem_cons_self c pt))

/-- `replace` on a string of shape `p ++ pat ++ s` where the pattern's head
character occurs nowhere in `p` or `s` (so the only occurrence of the
pattern is the explicit one): exactly that occurrence is replaced. -/
theorem replaceAll_single_occ (c : Char) (pt rep : Str) :
    ∀ (p s : Str), c ∉ p → c ∉ s →
      replaceAll (c :: pt) rep (p ++ ((c :: pt) ++ s)) = p ++ (rep ++ s) := by
  intro p
  induction p with
  | nil =>
    intro s _ hs
    simp only [List.nil_append, List.cons_append]
    rw [replaceAll_cons, if_pos ?_]
    · have hdrop : (c :: (pt ++ s)).drop (c :: pt).length = s := by
        have : (c :: (pt ++ s)) = (c :: pt) ++ s := by simp
        rw [this, List.drop_left]
      rw [hdrop, replaceAll_head_notMem c pt rep s hs]
    · refine ⟨List.cons_ne_nil c pt, ?_⟩
      apply List.isPrefixOf_iff_prefix.mpr
      exact ⟨s, by simp⟩
  | cons a p' ih =>
    intro s hp hs
    have hca : c ≠ a := fun he => hp (he ▸ List.mem_cons_self a p')
    rw [List.cons_append, replaceAll_cons, if_neg ?_,
      ih s (fun hm => hp (List.mem_cons_of_mem a hm)) hs, List.cons_append]
    rintro ⟨-, hpre⟩
    obtain ⟨t, ht⟩ := List.isPrefixOf_iff_prefix.mp hpre
    rw [List.cons_append] at ht
    exact hca (List.cons.inj ht).1

/-- The three textual forms of the project-root placeholder. -/
inductive PForm where
  | dq
  | sq
  | bare
deriving DecidableEq

/-- The text of each placeholder form as it occurs in a command string. -/
def PForm.render : PForm → Str
  | .dq => dqPat
  | .sq => sqPat
  | .bare => barePat

/-- A string fragment that keeps out of the way of placeholder substitution:
it contains no quote characters and no `$`. -/
abbrev noSpecial (l : Str) : Prop := dqC ∉ l ∧ sqC ∉ l ∧ '$' ∉ l

/-- Expansion normal form: a command `p ++ form ++ s` whose surroundings
and project directory contain no quote or `$` characters expands to
`p ++ projDir ++ s`, whichever of the three placeholder forms is used. -/
theorem expand_placeholder (p s projDir : Str) (f : PForm)
    (hp : noSpecial p) (hs : noSpecial s) (hd : noSpecial projDir) :
    expandCommand projDir (p ++ (PForm.render f ++ s)) = p ++ (projDir ++ s) := by
  obtain ⟨hp1, hp2, hp3⟩ := hp
  obtain ⟨hs1, hs2, hs3⟩ := hs
  obtain ⟨hd1, hd2, hd3⟩ := hd
  have hmem : ∀ (c : Char), c ∉ p → c ∉ projDir → c ∉ s → c ∉ (p ++ (projDir ++ s)) := by
    intro c h1 h2 h3 h
    rcases List.mem_append.mp h with h | h
    · exact h1 h
    rcases List.mem_append.mp h with h | h
    · exact h2 h
    · exact h3 h
  have hdq : dqPat = dqC :: (sL "$CLAUDE_PROJECT_DIR" ++ [dqC]) := rfl
  have hsq : sqPat = sqC :: (sL "$CLAUDE_PROJECT_DIR" ++ [sqC]) := rfl
  have hbare : barePat = '$' :: sL "CLAUDE_PROJECT_DIR" := rfl
  cases f with
  | dq =>
    show replaceAll barePat projDir (replaceAll sqPat projDir
      (replaceAll dqPat projDir (p ++ (dqPat ++ s)))) = p ++ (projDir ++ s)
    rw [hdq, replaceAll_single_occ dqC _ projDir p s hp1 hs1, hsq,
      replaceAll_head_notMem sqC _ projDir _ (hmem sqC hp2 hd2 hs2), hbare,
      replaceAll_head_notMem '$' _ projDir _ (hmem '$' hp3 hd3 hs3)]
  | sq =>
    show replaceAll barePat projDir (replaceAll sqPat projDir
      (replaceAll dqPat projDir (p ++ (sqPat ++ s)))) = p ++ (projDir ++ s)
    have hnot : dqC ∉ (p ++ (sqPat ++ s)) := by
      intro h
      rcases List.mem_append.mp h with h | h
      · exact hp1 h
      rcases List.mem_append.mp h with h | h
      · exact absurd h (by decide)
      · exact hs1 h
    rw [hdq, replaceAll_head_notMem dqC _ projDir _ hnot, hsq,
      replaceAll_single_occ sqC _ projDir p s hp2 hs2, hbare,
      replaceAll_head_notMem '$' _ projDir _ (hmem '$' hp3 hd3 hs3)]
  | bare =>
    show replaceAll barePat projDir (replaceAll sqPat projDir
      (replaceAll dqPat projDir (p ++ (barePat ++ s)))) = p ++ (projDir ++ s)
    have hnot1 : dqC ∉ (p ++ (barePat ++ s)) := by
      intro h
      rcases List.mem_append.mp h with h | h
      · exact hp1 h
      rcases List.mem_append.mp h with h | h
      · exact absurd h (by decide)
      · exact hs1 h
    have hnot2 : sqC ∉ (p ++ (barePat ++ s)) := by
      intro h
      rcases List.mem_append.mp h with h | h
      · exact hp2 h
      rcases List.mem_append.mp h with h | h
      · exact absurd h (by decide)
      · exact hs2 h
    rw [hdq, replaceAll_head_notMem dqC _ projDir _ hnot1, hsq,
      replaceAll_head_notMem sqC _ projDir _ hnot2, hbare,
      replaceAll_single_occ '$' _ projDir p s hp3 hs3]

/-- Two hook entries whose commands are non-empty and expand to the same
string contribute identically to the search. -/
theorem entryMatch_congr (resolve : Str → Option Str) (hookName hookAbs projDir ev mat : Str)
    (ht : Option Str) (pr c₁ c₂ : Str) (h1 : c₁ ≠ []) (h2 : c₂ ≠ [])
    (he : expandCommand projDir c₁ = expandCommand projDir c₂) :
    entryMatch resolve hookName hookAbs projDir ev mat ⟨ht, c₁, pr⟩ =
      entryMatch resolve hookName hookAbs projDir ev mat ⟨ht, c₂, pr⟩ := by
  by_cases hht : ht.getD (sL "command") ≠ sL "command"
  · simp [entryMatch, hht]
  · simp only [entryMatch, if_neg hht, if_neg (fun h => h1 h), if_neg (fun h => h2 h), he]

theorem collectHooks_append (resolve : Str → Option Str) (hookName hookAbs projDir ev mat : Str)
    (a b : List HookEntry) :
    collectHooks resolve hookName hookAbs projDir ev mat (a ++ b) =
      collectHooks resolve hookName hookAbs projDir ev mat a ++
        collectHooks resolve hookName hookAbs projDir ev mat b := by
  induction a with
  | nil => simp [collectHooks]
  | cons h rest ih =>
    simp only [List.cons_append, collectHooks, List.append_eq, ih, List.append_assoc]

theorem collectConfigs_append (resolve : Str → Option Str) (hookName hookAbs projDir ev : Str)
    (a b : List HookConfig) :
    collectConfigs resolve hookName hookAbs projDir ev (a ++ b) =
      collectConfigs resolve hookName hookAbs projDir ev a ++
        collectConfigs resolve hookName hookAbs projDir ev b := by
  induction a with
  | nil => simp [collectConfigs]
  | cons cfg rest ih =>
    simp only [List.cons_append, collectConfigs, List.append_eq, ih, List.append_assoc]

theorem collectMatches_append (resolve : Str → Option Str) (hookName hookAbs projDir : Str)
    (a b : SettingsDoc) :
    collectMatches resolve hookName hookAbs projDir (a ++ b) =
      collectMatches resolve hookName hookAbs projDir a ++
        collectMatches resolve hookName hookAbs projDir b := by
  induction a with
  | nil => simp [collectMatches]
  | cons e rest ih =>
    obtain ⟨ev, cfgs⟩ := e
    simp only [List.cons_append, collectMatches, List.append_eq, ih, List.append_assoc]

/-- C7: `find_hook_in_settings` returns the same `(found, events, matchers)`
triple for two settings documents that are identical except that one command
string uses a different textual form of the project-root placeholder
(double-quoted, single-quoted or bare), provided the rest of that command
and the project directory contain no quote or `$` characters. -/
theorem c7_placeholder_invariance (resolve : Str → Option Str)
    (hookName hookAbs projDir p s : Str) (f₁ f₂ : PForm)
    (hp : noSpecial p) (hs : noSpecial s) (hd : noSpecial projDir)
    (pre post : SettingsDoc) (ev : Str) (cfgPre cfgPost : List HookConfig)
    (mat ht : Option Str) (hkPre hkPost : List HookEntry) (pr : Str) :
    find_hook_in_settings resolve
        (some (pre ++ ((ev, cfgPre ++
          (⟨mat, hkPre ++ (⟨ht, p ++ (PForm.render f₁ ++ s), pr⟩ :: hkPost)⟩ :: cfgPost)) :: post)))
        hookName hookAbs projDir =
      find_hook_in_settings resolve
        (some (pre ++ ((ev, cfgPre ++
          (⟨mat, hkPre ++ (⟨ht, p ++ (PForm.render f₂ ++ s), pr⟩ :: hkPost)⟩ :: cfgPost)) :: post)))
        hookName hookAbs projDir := by
  have hrender : ∀ f : PForm, PForm.render f ≠ [] := by
    intro f
    cases f <;> decide
  have hne : ∀ f : PForm, p ++ (PForm.render f ++ s) ≠ [] := by
    intro f hf
    rcases List.append_eq_nil.mp hf with ⟨-, h2⟩
    rcases List.append_eq_nil.mp h2 with ⟨h3, -⟩
    exact hrender f h3
  have hcongr := entryMatch_congr resolve hookName hookAbs projDir ev (mat.getD (sL "*")) ht pr
    (p ++ (PForm.render f₁ ++ s)) (p ++ (PForm.render f₂ ++ s)) (hne f₁) (hne f₂)
    (by rw [expand_placeholder p s projDir f₁ hp hs hd,
          expand_placeholder p s projDir f₂ hp hs hd])
  simp only [find_hook_in_settings, collectMatches_append, collectMatches,
    collectConfigs_append, collectConfigs, collectHooks_append, collectHooks, hcongr]

theorem c7_placeholder_invariance_witness :
    find_hook_in_settings (fun s => some s)
        (some [(sL "PreToolUse",
          [⟨none, [⟨none, sL "python3 " ++ (PForm.render .dq ++ sL "/.claude/hooks/x.py"), []⟩]⟩])])
        (sL "x.py") (sL "/proj/.claude/hooks/x.py") (sL "/proj") =
      find_hook_in_settings (fun s => some s)
        (some [(sL "PreToolUse",
          [⟨none, [⟨none, sL "python3 " ++ (PForm.render .bare ++ sL "/.claude/hooks/x.py"), []⟩]⟩])])
        (sL "x.py") (sL "/proj/.claude/hooks/x.py") (sL "/proj") :=
  c7_placeholder_invariance (fun s => some s) (sL "x.py") (sL "/proj/.claude/hooks/x.py")
    (sL "/proj") (sL "python3 ") (sL "/.claude/hooks/x.py") .dq .bare
    (by decide) (by decide) (by decide) [] [] (sL "PreToolUse") [] [] none none [] [] []

end CreateHooks
